import Mathlib

/-!
# Verification of the neosr Adan optimizer (`src/neosr/optimizers/adan.py`)

Shallow embedding of the Adan optimizer.  Tensors are modelled as lists of
rationals (`Tensor := List ℚ`); the element-wise in-place tensor operations of
the source become `List.map` / `List.zipWith`.  The square root applied by
`torch.sqrt` / `math.sqrt` is kept abstract as a function argument `sq : ℚ → ℚ`:
no claim in this development depends on its numeric value, only on both sides
of each comparison using the same function.  Python exceptions are modelled by
`Except PyErr`.
-/

/-- Error kinds raised by the Python source (`ValueError` at construction,
`IndexError` from a subscript on an empty list, `NameError` from resolving an
undefined global). -/
inductive PyErr where
  | valueError
  | indexError
  | nameError
  deriving DecidableEq, Repr

/-- A tensor, flattened to its list of elements. -/
abbrev Tensor := List ℚ

/-- `torch.zeros_like(p)`: a zero tensor of the same shape as `t`. -/
def zerosLike (t : Tensor) : Tensor := t.map fun _ => 0

/-- `torch.mean(t)` over all elements of a tensor. -/
def listMean (t : Tensor) : ℚ := t.sum / (t.length : ℚ)

/-- Three-list pointwise zip, used for `addcdiv_` / `addcmul_` which read two
tensors and update a third. -/
def zipWith3 (f : ℚ → ℚ → ℚ → ℚ) : List ℚ → List ℚ → List ℚ → List ℚ
  | a :: as, b :: bs, c :: cs => f a b c :: zipWith3 f as bs cs
  | _, _, _ => []

/-- The per-parameter data handed to a kernel: the parameter tensor, its
gradient and the four state tensors.  The Python kernels receive six parallel
lists (`params`, `grads`, `exp_avgs`, `exp_avg_sqs`, `exp_avg_diffs`,
`neg_pre_grads`); since every kernel operation acts index-by-index, the
parallel lists are embedded as one list of per-index records. -/
structure KEntry where
  param : Tensor
  grad : Tensor
  expAvg : Tensor
  expAvgSq : Tensor
  expAvgDiff : Tensor
  negPre : Tensor
  deriving DecidableEq, Repr

/-- The scalar keyword arguments built by `adan.step` and passed to either
kernel. -/
structure KArgs where
  beta1 : ℚ
  beta2 : ℚ
  beta3 : ℚ
  biasCorrection1 : ℚ
  biasCorrection2 : ℚ
  biasCorrection3Sqrt : ℚ
  lr : ℚ
  weightDecay : ℚ
  eps : ℚ
  noProx : Bool
  mc : Bool
  clip : ℚ
  deriving Repr

/-- Body of the `for i, param in enumerate(params)` loop of
`_single_tensor_adan`, acting on one parameter.  Each `let` mirrors one
in-place tensor operation of the source, in source order.  Note that the
moment-centralization line `exp_avg = exp_avg - torch.mean(exp_avg)` is *not*
in-place in the source: it rebinds the local name, so the centralized tensor
(`expAvgUsed`) is used for the parameter update while the stored state keeps
the uncentralized `expAvg`. -/
def singleTensorAdanStep (sq : ℚ → ℚ) (a : KArgs) (e : KEntry) : KEntry :=
  let grad := e.grad.map fun x => x * a.clip
  let negPre := List.zipWith (fun x y => x + y) e.negPre grad
  let expAvg := e.expAvg.map fun x => x * a.beta1
  let expAvg := List.zipWith (fun m g => m + (1 - a.beta1) * g) expAvg grad
  let expAvgUsed := if a.mc then expAvg.map fun x => x - listMean expAvg else expAvg
  let expAvgDiff := e.expAvgDiff.map fun x => x * a.beta2
  let expAvgDiff := List.zipWith (fun d x => d + (1 - a.beta2) * x) expAvgDiff negPre
  let negPre := negPre.map fun x => x * a.beta2
  let negPre := List.zipWith (fun x y => x + y) negPre grad
  let expAvgSq := e.expAvgSq.map fun x => x * a.beta3
  let expAvgSq := zipWith3 (fun n x y => n + (1 - a.beta3) * (x * y)) expAvgSq negPre negPre
  let denom := ((expAvgSq.map sq).map fun x => x / a.biasCorrection3Sqrt).map fun x => x + a.eps
  let stepSizeDiff := a.lr * a.beta2 / a.biasCorrection2
  let stepSize := a.lr / a.biasCorrection1
  let param :=
    if a.noProx then
      let param := e.param.map fun x => x * (1 - a.lr * a.weightDecay)
      let param := zipWith3 (fun q m d => q + (-stepSize) * (m / d)) param expAvgUsed denom
      zipWith3 (fun q x d => q + (-stepSizeDiff) * (x / d)) param expAvgDiff denom
    else
      let param := zipWith3 (fun q m d => q + (-stepSize) * (m / d)) e.param expAvgUsed denom
      let param := zipWith3 (fun q x d => q + (-stepSizeDiff) * (x / d)) param expAvgDiff denom
      param.map fun x => x / (1 + a.lr * a.weightDecay)
  let negPre := negPre.map fun _ => (0 : ℚ)
  let negPre := List.zipWith (fun z g => z + (-1) * g) negPre grad
  ⟨param, grad, expAvg, expAvgSq, expAvgDiff, negPre⟩

/-- `_single_tensor_adan`: the explicit per-parameter loop. -/
def singleTensorAdan (sq : ℚ → ℚ) (a : KArgs) (es : List KEntry) : List KEntry :=
  es.map (singleTensorAdanStep sq a)

set_option maxHeartbeats 1600000 in
/-- `_multi_tensor_adan`: each `torch._foreach_*` call is one pass over the
list of per-index records (a `torch._foreach` op applies the same element-wise
operation at every index of its parallel lists).  In contrast to the scalar
kernel, the moment-centralization pass `_foreach_add_(exp_avgs, exp_avg_mean,
alpha=-1)` *is* in-place: the stored `expAvg` state becomes the centralized
tensor. -/
def multiTensorAdan (sq : ℚ → ℚ) (a : KArgs) (es : List KEntry) : List KEntry :=
  if es.length = 0 then es else
  let es := es.map fun e => { e with grad := e.grad.map fun x => x * a.clip }
  let es := es.map fun e => { e with negPre := List.zipWith (fun x y => x + y) e.negPre e.grad }
  let es := es.map fun e => { e with expAvg := e.expAvg.map fun x => x * a.beta1 }
  let es := es.map fun e => { e with expAvg := List.zipWith (fun m g => m + (1 - a.beta1) * g) e.expAvg e.grad }
  let es := if a.mc then
      es.map fun e => { e with expAvg := e.expAvg.map fun x => x + (-1) * listMean e.expAvg }
    else es
  let es := es.map fun e => { e with expAvgDiff := e.expAvgDiff.map fun x => x * a.beta2 }
  let es := es.map fun e => { e with expAvgDiff := List.zipWith (fun d x => d + (1 - a.beta2) * x) e.expAvgDiff e.negPre }
  let es := es.map fun e => { e with negPre := e.negPre.map fun x => x * a.beta2 }
  let es := es.map fun e => { e with negPre := List.zipWith (fun x y => x + y) e.negPre e.grad }
  let es := es.map fun e => { e with expAvgSq := e.expAvgSq.map fun x => x * a.beta3 }
  let es := es.map fun e => { e with expAvgSq := zipWith3 (fun n x y => n + (1 - a.beta3) * (x * y)) e.expAvgSq e.negPre e.negPre }
  let denoms := es.map fun e => ((e.expAvgSq.map sq).map fun x => x / a.biasCorrection3Sqrt).map fun x => x + a.eps
  let stepSizeDiff := a.lr * a.beta2 / a.biasCorrection2
  let stepSize := a.lr / a.biasCorrection1
  let es :=
    if a.noProx then
      let es := es.map fun e => { e with param := e.param.map fun x => x * (1 - a.lr * a.weightDecay) }
      let es := (es.zip denoms).map fun p => { p.1 with param := zipWith3 (fun q m d => q + (-stepSize) * (m / d)) p.1.param p.1.expAvg p.2 }
      (es.zip denoms).map fun p => { p.1 with param := zipWith3 (fun q x d => q + (-stepSizeDiff) * (x / d)) p.1.param p.1.expAvgDiff p.2 }
    else
      let es := (es.zip denoms).map fun p => { p.1 with param := zipWith3 (fun q m d => q + (-stepSize) * (m / d)) p.1.param p.1.expAvg p.2 }
      let es := (es.zip denoms).map fun p => { p.1 with param := zipWith3 (fun q x d => q + (-stepSizeDiff) * (x / d)) p.1.param p.1.expAvgDiff p.2 }
      es.map fun e => { e with param := e.param.map fun x => x / (1 + a.lr * a.weightDecay) }
  let es := es.map fun e => { e with negPre := e.negPre.map fun _ => (0 : ℚ) }
  es.map fun e => { e with negPre := List.zipWith (fun z g => z + (-1) * g) e.negPre e.grad }

/-- Zipping two maps of the same list gives a map of pairs. -/
theorem zip_map_pair {α β γ : Type} (f : α → β) (g : α → γ) :
    ∀ l : List α, (l.map f).zip (l.map g) = l.map fun a => (f a, g a) := by
  intro l
  induction l with
  | nil => rfl
  | cons x xs ih => simp [ih]

set_option maxHeartbeats 1600000 in
/-- The effect of `_multi_tensor_adan` on one index of its parallel lists: the
composition of all its per-index passes, in source order.  `multiTensorAdan`
is proved equal to mapping this function (`multiTensorAdan_eq_map`). -/
def multiStep (sq : ℚ → ℚ) (a : KArgs) (e : KEntry) : KEntry :=
  let e := { e with grad := e.grad.map fun x => x * a.clip }
  let e := { e with negPre := List.zipWith (fun x y => x + y) e.negPre e.grad }
  let e := { e with expAvg := e.expAvg.map fun x => x * a.beta1 }
  let e := { e with expAvg := List.zipWith (fun m g => m + (1 - a.beta1) * g) e.expAvg e.grad }
  let e := if a.mc then { e with expAvg := e.expAvg.map fun x => x + (-1) * listMean e.expAvg } else e
  let e := { e with expAvgDiff := e.expAvgDiff.map fun x => x * a.beta2 }
  let e := { e with expAvgDiff := List.zipWith (fun d x => d + (1 - a.beta2) * x) e.expAvgDiff e.negPre }
  let e := { e with negPre := e.negPre.map fun x => x * a.beta2 }
  let e := { e with negPre := List.zipWith (fun x y => x + y) e.negPre e.grad }
  let e := { e with expAvgSq := e.expAvgSq.map fun x => x * a.beta3 }
  let e := { e with expAvgSq := zipWith3 (fun n x y => n + (1 - a.beta3) * (x * y)) e.expAvgSq e.negPre e.negPre }
  let denom := ((e.expAvgSq.map sq).map fun x => x / a.biasCorrection3Sqrt).map fun x => x + a.eps
  let stepSizeDiff := a.lr * a.beta2 / a.biasCorrection2
  let stepSize := a.lr / a.biasCorrection1
  let e :=
    if a.noProx then
      let e := { e with param := e.param.map fun x => x * (1 - a.lr * a.weightDecay) }
      let e := { e with param := zipWith3 (fun q m d => q + (-stepSize) * (m / d)) e.param e.expAvg denom }
      { e with param := zipWith3 (fun q x d => q + (-stepSizeDiff) * (x / d)) e.param e.expAvgDiff denom }
    else
      let e := { e with param := zipWith3 (fun q m d => q + (-stepSize) * (m / d)) e.param e.expAvg denom }
      let e := { e with param := zipWith3 (fun q x d => q + (-stepSizeDiff) * (x / d)) e.param e.expAvgDiff denom }
      { e with param := e.param.map fun x => x / (1 + a.lr * a.weightDecay) }
  let e := { e with negPre := e.negPre.map fun _ => (0 : ℚ) }
  { e with negPre := List.zipWith (fun z g => z + (-1) * g) e.negPre e.grad }

set_option maxHeartbeats 4000000 in
/-- The batched kernel acts index-by-index: it is the map of `multiStep`. -/
theorem multiTensorAdan_eq_map (sq : ℚ → ℚ) (a : KArgs) (es : List KEntry) :
    multiTensorAdan sq a es = es.map (multiStep sq a) := by
  unfold multiTensorAdan
  split
  · next h =>
    cases es with
    | nil => rfl
    | cons x xs => simp at h
  · cases hmc : a.mc <;> cases hnp : a.noProx <;>
      simp only [hmc, hnp, if_true, if_false, Bool.false_eq_true, List.map_map,
        zip_map_pair] <;>
      · refine List.map_congr_left fun e _ => ?_
        simp only [multiStep, hmc, hnp, if_true, if_false, Bool.false_eq_true,
          Function.comp_apply, Function.comp, List.map_map]

set_option maxHeartbeats 1600000 in
/-- With moment centralization disabled, one index of the batched kernel
computes exactly the scalar-kernel loop body. -/
theorem multiStep_eq_singleStep_mc_off (sq : ℚ → ℚ) (a : KArgs) (e : KEntry)
    (h : a.mc = false) : multiStep sq a e = singleTensorAdanStep sq a e := by
  cases hnp : a.noProx <;>
    simp only [multiStep, singleTensorAdanStep, h, hnp, if_true, if_false,
      Bool.false_eq_true, List.map_map, Function.comp]

/-- With moment centralization disabled, the batched kernel equals the scalar
kernel on every input. -/
theorem multiTensorAdan_eq_single_mc_off (sq : ℚ → ℚ) (a : KArgs) (es : List KEntry)
    (h : a.mc = false) : multiTensorAdan sq a es = singleTensorAdan sq a es := by
  rw [multiTensorAdan_eq_map, singleTensorAdan]
  exact List.map_congr_left fun e _ => multiStep_eq_singleStep_mc_off sq a e h

/-- Iterated kernel invocation over a fixed sequence of gradients, as the
`step` loop drives it for one group: at the `k`-th call the step counter is
`k + 1`, each parameter's gradient is loaded from the sequence, the bias
corrections are recomputed from the step counter, and the selected kernel
(batched for `useMulti = true`, scalar otherwise) is applied. -/
def runAdanKernel (useMulti : Bool) (sq : ℚ → ℚ)
    (beta1 beta2 beta3 lr weightDecay eps : ℚ) (noProx mc : Bool) (clip : ℚ) :
    List (List Tensor) → Nat → List KEntry → List KEntry
  | [], _, es => es
  | g :: gs, k, es =>
    let a : KArgs := ⟨beta1, beta2, beta3, 1 - beta1 ^ (k + 1), 1 - beta2 ^ (k + 1),
      sq (1 - beta3 ^ (k + 1)), lr, weightDecay, eps, noProx, mc, clip⟩
    let es := List.zipWith (fun e t => { e with grad := t }) es g
    runAdanKernel useMulti sq beta1 beta2 beta3 lr weightDecay eps noProx mc clip gs (k + 1)
      (if useMulti then multiTensorAdan sq a es else singleTensorAdan sq a es)

/-- C1 (counterexample): with moment centralization enabled (`mc = true`), the
batched and the scalar kernel do *not* produce the same state tensors: after a
single step on a single one-element parameter, the batched kernel has stored
the centralized `exp_avg` while the scalar kernel stores the uncentralized
one, so the runs differ. -/
theorem run_kernels_disagree_with_mc :
    runAdanKernel true (fun _ => 0) (1/2) 0 0 0 0 1 true true 1
        [[[1]]] 0 [⟨[0], [0], [0], [0], [0], [0]⟩]
    ≠ runAdanKernel false (fun _ => 0) (1/2) 0 0 0 0 1 true true 1
        [[[1]]] 0 [⟨[0], [0], [0], [0], [0], [0]⟩] := by
  simp [runAdanKernel, multiTensorAdan, singleTensorAdan, singleTensorAdanStep,
    zipWith3, listMean, KEntry.mk.injEq]
  norm_num

/-- C1 (amended): for every hyperparameter setting with moment centralization
disabled (`mc = false`), every initial parameter/state configuration, every
clip factor and every fixed sequence of gradients, the batched kernel
(`_multi_tensor_adan`) produces after every step exactly the same parameter
tensors and the same four state tensors as the scalar kernel
(`_single_tensor_adan`).  (Instantiating `gs` at each prefix of a gradient
sequence gives the equality after every intermediate step.) -/
theorem run_kernels_agree_mc_off (sq : ℚ → ℚ)
    (beta1 beta2 beta3 lr weightDecay eps : ℚ) (noProx : Bool) (clip : ℚ)
    (gs : List (List Tensor)) (k : Nat) (es : List KEntry) :
    runAdanKernel true sq beta1 beta2 beta3 lr weightDecay eps noProx false clip gs k es
    = runAdanKernel false sq beta1 beta2 beta3 lr weightDecay eps noProx false clip gs k es := by
  induction gs generalizing k es with
  | nil => rfl
  | cons g gs ih =>
    simp only [runAdanKernel, if_true, Bool.false_eq_true, if_false]
    rw [multiTensorAdan_eq_single_mc_off _ _ _ rfl]
    exact ih _ _

/-- Pointwise-equal functions give equal zips. -/
theorem zipWith_ext {α β γ : Type} {f g : α → β → γ} (h : ∀ a b, f a b = g a b) :
    ∀ (as : List α) (bs : List β), List.zipWith f as bs = List.zipWith g as bs := by
  intro as
  induction as with
  | nil => intro bs; rfl
  | cons a as ih => intro bs; cases bs <;> simp [h, ih]

/-- A map on the left list fuses into the zip function. -/
theorem zipWith_map_left_fuse {α β γ δ : Type} (f : γ → β → δ) (g : α → γ) :
    ∀ (as : List α) (bs : List β),
      List.zipWith f (as.map g) bs = List.zipWith (fun a b => f (g a) b) as bs := by
  intro as
  induction as with
  | nil => intro bs; rfl
  | cons a as ih => intro bs; cases bs <;> simp [ih]

/-- Swapping the two zipped lists flips the function's arguments. -/
theorem zipWith_swap {α β γ : Type} (f : α → β → γ) :
    ∀ (as : List α) (bs : List β),
      List.zipWith f as bs = List.zipWith (fun b a => f a b) bs as := by
  intro as
  induction as with
  | nil => intro bs; cases bs <;> rfl
  | cons a as ih => intro bs; cases bs <;> simp [ih]

/-- Pointwise-equal functions give equal three-way zips. -/
theorem zipWith3_ext {f g : ℚ → ℚ → ℚ → ℚ} (h : ∀ a b c, f a b c = g a b c) :
    ∀ as bs cs, zipWith3 f as bs cs = zipWith3 g as bs cs := by
  intro as
  induction as with
  | nil => intro bs cs; rfl
  | cons a as ih => intro bs cs; cases bs <;> cases cs <;> simp [zipWith3, h, ih]

/-- A map on the first list fuses into the three-way zip function. -/
theorem zipWith3_map_left_fuse (f : ℚ → ℚ → ℚ → ℚ) (g : ℚ → ℚ) :
    ∀ as bs cs, zipWith3 f (as.map g) bs cs = zipWith3 (fun a b c => f (g a) b c) as bs cs := by
  intro as
  induction as with
  | nil => intro bs cs; rfl
  | cons a as ih => intro bs cs; cases bs <;> cases cs <;> simp [zipWith3, ih]

/-- A three-way zip whose last two lists coincide is a two-way zip. -/
theorem zipWith3_same (f : ℚ → ℚ → ℚ → ℚ) :
    ∀ as bs, zipWith3 f as bs bs = List.zipWith (fun a b => f a b b) as bs := by
  intro as
  induction as with
  | nil => intro bs; rfl
  | cons a as ih => intro bs; cases bs <;> simp [zipWith3, ih]

/-- Zipping a zeroed buffer with `alpha = -1` addition against a list of at
most its length negates that list (`zero_().add_(grad, alpha=-1.0)`). -/
theorem zipWith_zero_neg :
    ∀ (as bs : List ℚ), bs.length ≤ as.length →
      List.zipWith (fun z g => z + (-1) * g) (as.map fun _ => (0 : ℚ)) bs
        = bs.map fun x => -x := by
  intro as
  induction as with
  | nil =>
    intro bs h
    cases bs with
    | nil => rfl
    | cons b bs => simp at h
  | cons a as ih =>
    intro bs h
    cases bs with
    | nil => rfl
    | cons b bs =>
      simp only [List.length_cons] at h
      simp only [List.map_cons, List.zipWith_cons_cons, ih bs (by omega),
        List.cons.injEq, and_true]
      ring

/-- The result of the claimed shared update equations for one parameter. -/
structure SpecOut where
  param : Tensor
  m : Tensor
  diff : Tensor
  n : Tensor
  negPre : Tensor
  deriving DecidableEq, Repr

/-- The shared Adan update equations exactly as the claim states them, for one
parameter with clipped gradient `g`, prior first moment `m`, gradient
difference average `diff`, second moment `n` and previous gradient `prevG`:
`m ← β1·m + (1-β1)·g`; when moment centralization is enabled the mean of `m`
over all its elements is subtracted from `m` before further use;
`diff ← β2·diff + (1-β2)·(g - prevG)`;
`n ← β3·n + (1-β3)·(β2·(g - prevG) + g)²`; `denom = sqrt(n)/sqrt(bc3) + eps`;
`stepSize = lr/bc1`, `stepSizeDiff = lr·β2/bc2`; the decay multiply
`·(1 - lr·wd)` comes before the two moment-based subtractions when `noProx`
holds and the divide `/(1 + lr·wd)` after them otherwise; finally `negPre`
is reset to `-g`. -/
def adanSpecUpdate (sq : ℚ → ℚ) (beta1 beta2 beta3 bc1 bc2 bc3 lr wd eps : ℚ)
    (noProx mc : Bool) (param m diff n prevG g : Tensor) : SpecOut :=
  let mNew := List.zipWith (fun mi gi => beta1 * mi + (1 - beta1) * gi) m g
  let mUsed := if mc then mNew.map fun x => x - listMean mNew else mNew
  let gd := List.zipWith (fun gi pi => gi - pi) g prevG
  let diffNew := List.zipWith (fun di xi => beta2 * di + (1 - beta2) * xi) diff gd
  let blended := List.zipWith (fun xi gi => beta2 * xi + gi) gd g
  let nNew := List.zipWith (fun ni xi => beta3 * ni + (1 - beta3) * xi ^ 2) n blended
  let denom := nNew.map fun x => sq x / sq bc3 + eps
  let stepSize := lr / bc1
  let stepSizeDiff := lr * beta2 / bc2
  let paramNew :=
    if noProx then
      let p := param.map fun x => x * (1 - lr * wd)
      let p := zipWith3 (fun q mi d => q - stepSize * (mi / d)) p mUsed denom
      zipWith3 (fun q xi d => q - stepSizeDiff * (xi / d)) p diffNew denom
    else
      let p := zipWith3 (fun q mi d => q - stepSize * (mi / d)) param mUsed denom
      let p := zipWith3 (fun q xi d => q - stepSizeDiff * (xi / d)) p diffNew denom
      p.map fun x => x / (1 + lr * wd)
  let negPreNew := g.map fun x => -x
  ⟨paramNew, mNew, diffNew, nNew, negPreNew⟩

set_option maxHeartbeats 1600000 in
/-- C2: one invocation of the scalar kernel (`_single_tensor_adan` loop body)
on a parameter whose `neg_pre_grad` state holds `-prevG` computes exactly the
shared update equations of the claim (`adanSpecUpdate`), evaluated at the
clipped gradient `g = clip·grad`; the gradient buffer itself ends up holding
`g`.  The hypothesis ties the previous gradient's shape to the current one,
as the in-place tensor ops of the source require. -/
theorem single_kernel_computes_spec_equations (sq : ℚ → ℚ)
    (beta1 beta2 beta3 bc1 bc2 bc3 lr wd eps clip : ℚ) (noProx mc : Bool)
    (param grad m diff n prevG : Tensor) (h : prevG.length = grad.length) :
    singleTensorAdanStep sq
        ⟨beta1, beta2, beta3, bc1, bc2, sq bc3, lr, wd, eps, noProx, mc, clip⟩
        ⟨param, grad, m, n, diff, prevG.map fun x => -x⟩
      = (let g := grad.map fun x => x * clip
         let r := adanSpecUpdate sq beta1 beta2 beta3 bc1 bc2 bc3 lr wd eps
           noProx mc param m diff n prevG g
         ⟨r.param, g, r.m, r.n, r.diff, r.negPre⟩) := by
  have hgd : List.zipWith (fun x y => x + y) (prevG.map fun x => -x)
        (grad.map fun x => x * clip)
      = List.zipWith (fun gi pi => gi - pi) (grad.map fun x => x * clip) prevG := by
    rw [zipWith_map_left_fuse, zipWith_swap (fun gi pi => gi - pi)]
    exact zipWith_ext (fun a b => by ring) _ _
  have hm : List.zipWith (fun mg gg => mg + (1 - beta1) * gg) (m.map fun x => x * beta1)
        (grad.map fun x => x * clip)
      = List.zipWith (fun mi gi => beta1 * mi + (1 - beta1) * gi) m
        (grad.map fun x => x * clip) := by
    rw [zipWith_map_left_fuse]
    exact zipWith_ext (fun a b => by ring) _ _
  have hdiff : List.zipWith (fun d x => d + (1 - beta2) * x) (diff.map fun x => x * beta2)
        (List.zipWith (fun gi pi => gi - pi) (grad.map fun x => x * clip) prevG)
      = List.zipWith (fun di xi => beta2 * di + (1 - beta2) * xi) diff
        (List.zipWith (fun gi pi => gi - pi) (grad.map fun x => x * clip) prevG) := by
    rw [zipWith_map_left_fuse]
    exact zipWith_ext (fun a b => by ring) _ _
  have hblend : List.zipWith (fun x y => x + y)
        ((List.zipWith (fun gi pi => gi - pi) (grad.map fun x => x * clip) prevG).map
          fun x => x * beta2)
        (grad.map fun x => x * clip)
      = List.zipWith (fun xi gi => beta2 * xi + gi)
        (List.zipWith (fun gi pi => gi - pi) (grad.map fun x => x * clip) prevG)
        (grad.map fun x => x * clip) := by
    rw [zipWith_map_left_fuse]
    exact zipWith_ext (fun a b => by ring) _ _
  have hn : zipWith3 (fun nn x y => nn + (1 - beta3) * (x * y)) (n.map fun x => x * beta3)
        (List.zipWith (fun xi gi => beta2 * xi + gi)
          (List.zipWith (fun gi pi => gi - pi) (grad.map fun x => x * clip) prevG)
          (grad.map fun x => x * clip))
        (List.zipWith (fun xi gi => beta2 * xi + gi)
          (List.zipWith (fun gi pi => gi - pi) (grad.map fun x => x * clip) prevG)
          (grad.map fun x => x * clip))
      = List.zipWith (fun ni xi => beta3 * ni + (1 - beta3) * xi ^ 2) n
        (List.zipWith (fun xi gi => beta2 * xi + gi)
          (List.zipWith (fun gi pi => gi - pi) (grad.map fun x => x * clip) prevG)
          (grad.map fun x => x * clip)) := by
    rw [zipWith3_map_left_fuse, zipWith3_same]
    exact zipWith_ext (fun a b => by ring) _ _
  have hneg : List.zipWith (fun z g => z + (-1) * g)
        ((List.zipWith (fun xi gi => beta2 * xi + gi)
          (List.zipWith (fun gi pi => gi - pi) (grad.map fun x => x * clip) prevG)
          (grad.map fun x => x * clip)).map fun _ => (0 : ℚ))
        (grad.map fun x => x * clip)
      = (grad.map fun x => x * clip).map fun x => -x := by
    refine zipWith_zero_neg _ _ ?_
    simp [h]
  simp only [singleTensorAdanStep, adanSpecUpdate, hgd, hm, hdiff, hblend, hn, hneg,
    List.map_map, Function.comp, KEntry.mk.injEq, and_true, true_and]
  cases noProx with
  | false =>
    simp only [Bool.false_eq_true, if_false]
    rw [@zipWith3_ext (fun q mi d => q + -(lr / bc1) * (mi / d))
      (fun q mi d => q - lr / bc1 * (mi / d)) (fun a b c => by ring)]
    rw [@zipWith3_ext (fun q xi d => q + -(lr * beta2 / bc2) * (xi / d))
      (fun q xi d => q - lr * beta2 / bc2 * (xi / d)) (fun a b c => by ring)]
    rfl
  | true =>
    simp only [if_true]
    rw [@zipWith3_ext (fun q mi d => q + -(lr / bc1) * (mi / d))
      (fun q mi d => q - lr / bc1 * (mi / d)) (fun a b c => by ring)]
    rw [@zipWith3_ext (fun q xi d => q + -(lr * beta2 / bc2) * (xi / d))
      (fun q xi d => q - lr * beta2 / bc2 * (xi / d)) (fun a b c => by ring)]
    rfl

/-- The per-parameter state dictionary `self.state[p]`.  The three moment
tensors are created together (`len(state) == 0` initialization or
`restart_opt`); `neg_pre_grad` is a separate key that may be absent. -/
structure PState where
  expAvg : Tensor
  expAvgSq : Tensor
  expAvgDiff : Tensor
  negPre : Option Tensor
  deriving DecidableEq, Repr

/-- One parameter as the optimizer sees it: its data, its (optional) gradient,
its `requires_grad` flag, and its state dictionary (`none` models an empty
`self.state[p]`). -/
structure PEntry where
  data : Tensor
  grad : Option Tensor
  requiresGrad : Bool
  pstate : Option PState
  deriving DecidableEq, Repr

/-- The hyperparameter defaults dictionary built by `adan.__init__`. -/
structure Defaults where
  lr : ℚ
  beta1 : ℚ
  beta2 : ℚ
  beta3 : ℚ
  eps : ℚ
  weightDecay : ℚ
  maxGradNorm : ℚ
  noProx : Bool
  mc : Bool
  foreach : Bool
  deriving DecidableEq, Repr

/-- One parameter group: its parameters (with their states) and its
hyperparameters; `stepCount = none` models a group dictionary without a
`"step"` key. -/
structure ParamGroup where
  entries : List PEntry
  lr : ℚ
  beta1 : ℚ
  beta2 : ℚ
  beta3 : ℚ
  eps : ℚ
  weightDecay : ℚ
  maxGradNorm : ℚ
  noProx : Bool
  mc : Bool
  foreach : Bool
  stepCount : Option Nat
  deriving DecidableEq, Repr

/-- The optimizer object: its defaults dictionary and its parameter groups. -/
structure adan where
  defaults : Defaults
  groups : List ParamGroup
  deriving DecidableEq, Repr

/-- `adan.__init__`: the validation chain, in source order (`max_grad_norm`,
`lr`, `eps`, then the three betas), each raising `ValueError` when its
condition fails; on success the defaults dictionary holds the given values
unchanged. -/
def adanInit (lr : ℚ) (betas : ℚ × ℚ × ℚ) (eps weightDecay maxGradNorm : ℚ)
    (noProx mc foreach : Bool) : Except PyErr Defaults :=
  if ¬ maxGradNorm ≥ 0 then .error .valueError
  else if ¬ lr ≥ 0 then .error .valueError
  else if ¬ eps ≥ 0 then .error .valueError
  else if ¬ (0 ≤ betas.1 ∧ betas.1 < 1) then .error .valueError
  else if ¬ (0 ≤ betas.2.1 ∧ betas.2.1 < 1) then .error .valueError
  else if ¬ (0 ≤ betas.2.2 ∧ betas.2.2 < 1) then .error .valueError
  else .ok ⟨lr, betas.1, betas.2.1, betas.2.2, eps, weightDecay, maxGradNorm,
    noProx, mc, foreach⟩

/-- The accumulated `global_grad_norm` before the square root: the sum of
`grad.pow(2).sum()` over every parameter with a present gradient, in every
group. -/
def globalNorm2 (o : adan) : ℚ :=
  (o.groups.map fun g =>
    ((g.entries.filterMap PEntry.grad).map fun t => (t.map fun x => x ^ 2).sum).sum).sum

/-- The clipping pass at the top of `adan.step`: when
`self.defaults["max_grad_norm"] > 0` it subscripts `param_groups[0]["params"][0]`
(raising `IndexError` on an empty first group) and computes
`clamp(max_grad_norm / (global_norm + group["eps"]), max=1.0)`, where `group`
is the leaked loop variable, i.e. the *last* parameter group; otherwise the
factor is `1.0`. -/
def clipFactor (sq : ℚ → ℚ) (o : adan) : Except PyErr ℚ :=
  if 0 < o.defaults.maxGradNorm then
    match o.groups with
    | [] => .error .indexError
    | g0 :: gs =>
      match g0.entries with
      | [] => .error .indexError
      | _ :: _ =>
        let gnorm := sq (globalNorm2 o)
        let epsLast := (gs.getLastD g0).eps
        .ok (min (o.defaults.maxGradNorm / (gnorm + epsLast)) 1)
  else .ok 1

/-- The kernel input built for one parameter with gradient `g`: lazy state
initialization when the state dictionary is empty, then the `neg_pre_grad`
re-seeding `p.grad.clone().mul_(-clip)` when the key is absent or the group's
step counter is 1. -/
def mkK (clip : ℚ) (stepNow : Nat) (e : PEntry) (g : Tensor) : KEntry :=
  let st : PState := match e.pstate with
    | none => ⟨zerosLike e.data, zerosLike e.data, zerosLike e.data, none⟩
    | some s => s
  let np : Tensor :=
    match st.negPre with
    | none => g.map fun x => x * (-clip)
    | some v => if stepNow = 1 then g.map fun x => x * (-clip) else v
  ⟨e.data, g, st.expAvg, st.expAvgSq, st.expAvgDiff, np⟩

/-- The gather loop of `adan.step`: parameters without a gradient are skipped,
the others are prepared by `mkK` in order. -/
def gatherK (clip : ℚ) (stepNow : Nat) (es : List PEntry) : List KEntry :=
  es.filterMap fun e => match e.grad with
    | none => none
    | some g => some (mkK clip stepNow e g)

/-- Writing one kernel result back into a parameter: the parameter data, the
(in-place scaled) gradient and all four state tensors after the kernel ran. -/
def writeBack (e : PEntry) (k : KEntry) : PEntry :=
  { data := k.param
    grad := some k.grad
    requiresGrad := e.requiresGrad
    pstate := some ⟨k.expAvg, k.expAvgSq, k.expAvgDiff, some k.negPre⟩ }

/-- Scattering the kernel outputs back over the group's parameter list:
parameters without a gradient are passed through untouched, the others receive
the kernel results in order (the in-place mutation of the gathered tensors). -/
def scatter : List PEntry → List KEntry → List PEntry
  | [], _ => []
  | e :: es, ks =>
    match e.grad with
    | none => e :: scatter es ks
    | some _ =>
      match ks with
      | [] => e :: scatter es []
      | k :: ks => writeBack e k :: scatter es ks

/-- `group["step"] += 1` when the key exists, else `group["step"] = 1`. -/
def nextStep : Option Nat → Nat
  | some n => n + 1
  | none => 1

/-- The scalar kwargs assembled in `adan.step` for one group at the given step
counter value, including the bias corrections and
`bias_correction3_sqrt = math.sqrt(1 - beta3 ** step)`. -/
def groupKArgs (sq : ℚ → ℚ) (clip : ℚ) (g : ParamGroup) (stepNow : Nat) : KArgs :=
  ⟨g.beta1, g.beta2, g.beta3,
    1 - g.beta1 ^ stepNow, 1 - g.beta2 ^ stepNow, sq (1 - g.beta3 ^ stepNow),
    g.lr, g.weightDecay, g.eps, g.noProx, g.mc, clip⟩

/-- The per-group body of `adan.step`: increment the step counter, gather the
parameters with gradients (initializing and re-seeding state as needed),
`continue` when none carry a gradient, otherwise dispatch to the batched or
scalar kernel according to `group["foreach"]` and write the results back. -/
def groupStep (sq : ℚ → ℚ) (clip : ℚ) (g : ParamGroup) : ParamGroup :=
  let stepNow := nextStep g.stepCount
  let ks := gatherK clip stepNow g.entries
  if ks.isEmpty then { g with stepCount := some stepNow }
  else
    let ks := if g.foreach then multiTensorAdan sq (groupKArgs sq clip g stepNow) ks
      else singleTensorAdan sq (groupKArgs sq clip g stepNow) ks
    { g with stepCount := some stepNow, entries := scatter g.entries ks }

/-- `adan.step` (without a closure): the global clipping pass followed by the
per-group updates, every group receiving the same scalar clip factor. -/
def adanStep (sq : ℚ → ℚ) (o : adan) : Except PyErr adan :=
  match clipFactor sq o with
  | .error err => .error err
  | .ok c => .ok { o with groups := o.groups.map (groupStep sq c) }

/-- `restart_opt` on one parameter: for a parameter that requires gradients,
the three moment tensors of its state dictionary are set to zero tensors of
the parameter's shape (any `neg_pre_grad` key is left as is); other
parameters are untouched. -/
def restartEntry (e : PEntry) : PEntry :=
  if e.requiresGrad then
    { e with pstate := some ⟨zerosLike e.data, zerosLike e.data, zerosLike e.data,
        (e.pstate.bind PState.negPre)⟩ }
  else e

/-- `adan.restart_opt`: sets every group's step counter to 0 and reinitializes
the moment state of every parameter that requires gradients. -/
def restartOpt (o : adan) : adan :=
  { o with groups := o.groups.map fun g =>
      { g with stepCount := some 0, entries := g.entries.map restartEntry } }

/-- The names resolvable from the body of `adan.__setstate__`: the module's
top-level bindings of `adan.py` (its imports and its three definitions).
Python name resolution for the identifier `Adan` searches these (no local or
enclosing binding exists, and no builtin is named `Adan`). -/
def adanModuleNames : List String :=
  ["math", "torch", "Tensor", "Optimizer", "adan",
   "_single_tensor_adan", "_multi_tensor_adan"]

/-- `adan.__setstate__`: its first statement evaluates `super(Adan, self)`,
which resolves the global name `Adan`; when that lookup fails a `NameError` is
raised before the state argument is ever used.  The `.ok` branch (the rest of
the method) is unreachable for this module's name table. -/
def adanSetstate {α : Type} (_state : α) : Except PyErr Unit :=
  if "Adan" ∈ adanModuleNames then .ok () else .error .nameError

theorem gatherK_cons (c : ℚ) (n : Nat) (e : PEntry) (es : List PEntry) :
    gatherK c n (e :: es)
      = match e.grad with
        | none => gatherK c n es
        | some g => mkK c n e g :: gatherK c n es := by
  cases hg : e.grad <;> simp [gatherK, List.filterMap_cons, hg]

/-- Scattering the mapped gather back over the entry list acts entry-wise:
grad-less entries pass through, the others get the per-entry kernel result
written back. -/
theorem scatter_gather_map (c : ℚ) (n : Nat) (f : KEntry → KEntry) :
    ∀ es : List PEntry,
      scatter es ((gatherK c n es).map f)
        = es.map fun e =>
            match e.grad with
            | none => e
            | some g => writeBack e (f (mkK c n e g)) := by
  intro es
  induction es with
  | nil => rfl
  | cons e es ih =>
    rw [gatherK_cons]
    cases hg : e.grad with
    | none => simp only [hg, List.map_cons, scatter, ih]
    | some g => simp only [hg, List.map_cons, scatter, ih]

/-- The gathered kernel inputs are empty exactly when no parameter of the
group carries a gradient. -/
theorem gatherK_eq_nil_iff (c : ℚ) (n : Nat) :
    ∀ es : List PEntry, gatherK c n es = [] ↔ ∀ e ∈ es, e.grad = none := by
  intro es
  induction es with
  | nil => simp [gatherK]
  | cons e es ih =>
    cases hg : e.grad with
    | none => simp [gatherK, List.filterMap_cons, hg] at ih ⊢; exact ih
    | some g => simp [gatherK, List.filterMap_cons, hg]

/-- The scalar kernel scales the gradient buffer by the clip factor. -/
theorem singleStep_grad (sq : ℚ → ℚ) (a : KArgs) (e : KEntry) :
    (singleTensorAdanStep sq a e).grad = e.grad.map fun x => x * a.clip := rfl

/-- The batched kernel scales the gradient buffer by the clip factor. -/
theorem multiStep_grad (sq : ℚ → ℚ) (a : KArgs) (e : KEntry) :
    (multiStep sq a e).grad = e.grad.map fun x => x * a.clip := by
  cases hmc : a.mc <;> cases hnp : a.noProx <;>
    simp [multiStep, hmc, hnp]

/-- C4: construction fails (with the source's `ValueError`, the spec's
`InvalidHyperparameter`) exactly when some beta lies outside `[0,1)` or
`lr`/`eps`/`max_grad_norm` is negative; within range it succeeds and the
stored defaults carry the given values unchanged (no silent clamping). -/
theorem init_validates_hyperparameters (lr b1 b2 b3 eps wd mgn : ℚ)
    (noProx mc foreach : Bool) :
    (adanInit lr (b1, b2, b3) eps wd mgn noProx mc foreach
        = .ok ⟨lr, b1, b2, b3, eps, wd, mgn, noProx, mc, foreach⟩
      ↔ ((0 ≤ b1 ∧ b1 < 1) ∧ (0 ≤ b2 ∧ b2 < 1) ∧ (0 ≤ b3 ∧ b3 < 1)
          ∧ 0 ≤ lr ∧ 0 ≤ eps ∧ 0 ≤ mgn))
    ∧ (¬ ((0 ≤ b1 ∧ b1 < 1) ∧ (0 ≤ b2 ∧ b2 < 1) ∧ (0 ≤ b3 ∧ b3 < 1)
          ∧ 0 ≤ lr ∧ 0 ≤ eps ∧ 0 ≤ mgn)
        → adanInit lr (b1, b2, b3) eps wd mgn noProx mc foreach
            = .error .valueError) := by
  unfold adanInit
  split_ifs with h1 h2 h3 h4 h5 h6 <;> refine ⟨?_, ?_⟩ <;> simp_all

/-- C4 witness: in-range hyperparameters construct successfully with the
values kept exactly. -/
theorem init_validates_hyperparameters_witness :
    adanInit 1 (0, 0, 0) 0 0 0 true true true
      = .ok ⟨1, 0, 0, 0, 0, 0, 0, true, true, true⟩ :=
  (init_validates_hyperparameters 1 0 0 0 0 0 0 true true true).1.mpr
    (by norm_num)

/-- C9: `adan.__setstate__` resolves the undefined global `Adan` (the class is
named `adan`), so every invocation raises `NameError` whatever the state
argument is; an instance can never be restored through it. -/
theorem setstate_raises_nameerror {α : Type} (st : α) :
    adanSetstate st = .error .nameError := by
  unfold adanSetstate
  rw [if_neg]
  simp [adanModuleNames]

/-- C10: with `max_grad_norm > 0` and an empty parameter list in the first
group, the clipping pass subscripts `param_groups[0]["params"][0]` and raises
`IndexError` before any update occurs (the optimizer state is not touched). -/
theorem empty_first_group_index_error (sq : ℚ → ℚ) (o : adan) (g0 : ParamGroup)
    (gs : List ParamGroup) (hmgn : 0 < o.defaults.maxGradNorm)
    (hg : o.groups = g0 :: gs) (hp : g0.entries = []) :
    adanStep sq o = .error .indexError := by
  simp [adanStep, clipFactor, hg, hp, hmgn]

/-- C10 witness: a concrete optimizer with `max_grad_norm = 1` and an empty
first group errors out. -/
theorem empty_first_group_index_error_witness :
    adanStep (fun x => x)
        ⟨⟨1, 0, 0, 0, 0, 0, 1, true, true, true⟩,
         [⟨[], 1, 0, 0, 0, 0, 0, 1, true, true, true, none⟩]⟩
      = .error .indexError :=
  empty_first_group_index_error (fun x => x) _ _ _ (by norm_num) rfl rfl

/-- C6: whenever the group's (already incremented) step counter is 1 or the
parameter's `neg_pre_grad` key is absent, the kernel input built by `step`
carries `neg_pre_grad = -clip·grad`. -/
theorem neg_pre_grad_seeded (clip : ℚ) (stepNow : Nat) (e : PEntry) (g : Tensor)
    (h : stepNow = 1 ∨ e.pstate.bind PState.negPre = none) :
    (mkK clip stepNow e g).negPre = g.map fun x => -(clip * x) := by
  have hfn : (g.map fun x => x * (-clip)) = g.map fun x => -(clip * x) :=
    List.map_congr_left fun x _ => by ring
  unfold mkK
  cases hps : e.pstate with
  | none => simpa using hfn
  | some s =>
    cases hnp : s.negPre with
    | none => simpa [hnp] using hfn
    | some v =>
      rcases h with h1 | h2
      · simp only [hnp, h1, if_pos rfl]
        exact hfn
      · rw [hps] at h2
        simp [hnp] at h2

/-- C6 witness: at step counter 1 the seeding happens even when a previous
`neg_pre_grad` exists. -/
theorem neg_pre_grad_seeded_witness :
    (mkK 2 1 ⟨[1], some [3], true, some ⟨[0], [0], [0], some [5]⟩⟩ [3]).negPre
      = [3].map fun x => -(2 * x) :=
  neg_pre_grad_seeded 2 1 ⟨[1], some [3], true, some ⟨[0], [0], [0], some [5]⟩⟩ [3]
    (Or.inl rfl)

/-- The per-entry function the group's kernel call applies: the batched or the
scalar per-index step according to `group["foreach"]`. -/
def kernelStepFn (sq : ℚ → ℚ) (foreach : Bool) (a : KArgs) : KEntry → KEntry :=
  if foreach then multiStep sq a else singleTensorAdanStep sq a

/-- After `groupStep`, the group's step counter is the incremented counter,
whether or not any parameter carried a gradient. -/
theorem groupStep_stepCount (sq : ℚ → ℚ) (c : ℚ) (grp : ParamGroup) :
    (groupStep sq c grp).stepCount = some (nextStep grp.stepCount) := by
  simp only [groupStep]
  cases hks : (gatherK c (nextStep grp.stepCount) grp.entries).isEmpty <;>
    simp [hks]

/-- The entries after `groupStep`: grad-less parameters are untouched; each
parameter with a gradient receives the write-back of the selected kernel
applied to its prepared input. -/
theorem groupStep_entries (sq : ℚ → ℚ) (c : ℚ) (grp : ParamGroup) :
    (groupStep sq c grp).entries
      = grp.entries.map fun e =>
          match e.grad with
          | none => e
          | some g => writeBack e (kernelStepFn sq grp.foreach
              (groupKArgs sq c grp (nextStep grp.stepCount))
              (mkK c (nextStep grp.stepCount) e g)) := by
  simp only [groupStep]
  cases hks : (gatherK c (nextStep grp.stepCount) grp.entries).isEmpty with
  | true =>
    simp only [hks, if_true]
    have hnone : ∀ e ∈ grp.entries, e.grad = none := by
      refine (gatherK_eq_nil_iff c (nextStep grp.stepCount) grp.entries).mp ?_
      simpa [List.isEmpty_iff] using hks
    have hmap : grp.entries.map (fun e =>
        match e.grad with
        | none => e
        | some g => writeBack e (kernelStepFn sq grp.foreach
            (groupKArgs sq c grp (nextStep grp.stepCount))
            (mkK c (nextStep grp.stepCount) e g))) = grp.entries.map id := by
      refine List.map_congr_left fun e he => ?_
      rw [hnone e he]
      rfl
    rw [hmap, List.map_id]
  | false =>
    simp only [hks, Bool.false_eq_true, if_false]
    cases hfe : grp.foreach with
    | true =>
      simp only [hfe, if_true, multiTensorAdan_eq_map, scatter_gather_map, kernelStepFn]
    | false =>
      simp only [hfe, Bool.false_eq_true, if_false, singleTensorAdan,
        scatter_gather_map, kernelStepFn]

/-- `groupStep` changes nothing in a group besides its entries and its step
counter (the hyperparameter fields survive unchanged). -/
theorem groupStep_eq (sq : ℚ → ℚ) (c : ℚ) (grp : ParamGroup) :
    groupStep sq c grp
      = { grp with
          stepCount := some (nextStep grp.stepCount)
          entries := (groupStep sq c grp).entries } := by
  simp only [groupStep]
  cases hks : (gatherK c (nextStep grp.stepCount) grp.entries).isEmpty <;>
    simp [hks]

/-- C8: after `restart_opt`, every group's step counter is 0 and, for every
parameter that requires gradients, the three moment tensors of its state are
zero tensors of the parameter's shape — whatever the prior history was. -/
theorem restart_zeroes_state (o : adan) (j : Nat) (g : ParamGroup)
    (hj : (restartOpt o).groups[j]? = some g) :
    g.stepCount = some 0 ∧
    ∀ (i : Nat) (e : PEntry), g.entries[i]? = some e → e.requiresGrad = true →
      e.pstate.map PState.expAvg = some (zerosLike e.data)
      ∧ e.pstate.map PState.expAvgSq = some (zerosLike e.data)
      ∧ e.pstate.map PState.expAvgDiff = some (zerosLike e.data) := by
  simp only [restartOpt, List.getElem?_map] at hj
  cases hg0 : o.groups[j]? with
  | none => rw [hg0] at hj; cases hj
  | some g0 =>
    rw [hg0] at hj
    simp only [Option.map_some'] at hj
    injection hj with hj
    subst hj
    refine ⟨rfl, ?_⟩
    intro i e hi hreq
    simp only [List.getElem?_map] at hi
    cases he0 : g0.entries[i]? with
    | none => rw [he0] at hi; cases hi
    | some e0 =>
      rw [he0] at hi
      simp only [Option.map_some'] at hi
      injection hi with hi
      subst hi
      by_cases hr : e0.requiresGrad
      · simp [restartEntry, hr]
      · simp only [restartEntry, hr, if_false] at hreq
        exact absurd hreq hr

/-- C8 witness: a concrete optimizer with one trained parameter, reset. -/
theorem restart_zeroes_state_witness :
    (⟨[⟨[1], none, true, some ⟨[0], [0], [0], none⟩⟩],
        1, 0, 0, 0, 0, 0, 0, true, true, true, some 0⟩ : ParamGroup).stepCount = some 0
    ∧ ((⟨[1], none, true, some ⟨[0], [0], [0], none⟩⟩ : PEntry).pstate.map PState.expAvg
          = some (zerosLike [1])
        ∧ (⟨[1], none, true, some ⟨[0], [0], [0], none⟩⟩ : PEntry).pstate.map PState.expAvgSq
          = some (zerosLike [1])
        ∧ (⟨[1], none, true, some ⟨[0], [0], [0], none⟩⟩ : PEntry).pstate.map PState.expAvgDiff
          = some (zerosLike [1])) :=
  ⟨(restart_zeroes_state
      ⟨⟨1, 0, 0, 0, 0, 0, 0, true, true, true⟩,
        [⟨[⟨[1], some [2], true, some ⟨[3], [4], [5], none⟩⟩],
          1, 0, 0, 0, 0, 0, 0, true, true, true, some 7⟩]⟩ 0 _ rfl).1,
   (restart_zeroes_state
      ⟨⟨1, 0, 0, 0, 0, 0, 0, true, true, true⟩,
        [⟨[⟨[1], none, true, some ⟨[3], [4], [5], none⟩⟩],
          1, 0, 0, 0, 0, 0, 0, true, true, true, some 7⟩]⟩ 0 _ rfl).2 0 _ rfl rfl⟩

/-- The entries of a group none of whose parameters carries a gradient are
untouched by `groupStep`. -/
theorem groupStep_entries_gradless (sq : ℚ → ℚ) (c : ℚ) (grp : ParamGroup)
    (hnone : ∀ e ∈ grp.entries, e.grad = none) :
    (groupStep sq c grp).entries = grp.entries := by
  rw [groupStep_entries]
  conv_rhs => rw [← List.map_id grp.entries]
  refine List.map_congr_left fun e he => ?_
  rw [hnone e he]
  rfl

/-- C5 (counterexample): a call to `step()` on a group with no gradients is
*not* a no-op on every group field — the group's step counter is still
created/incremented (here: from absent to 1), so the optimizer is changed. -/
theorem gradless_group_step_counter_changes :
    adanStep (fun x => x)
        ⟨⟨1, 0, 0, 0, 0, 0, 0, true, true, true⟩,
          [⟨[], 1, 0, 0, 0, 0, 0, 0, true, true, true, none⟩]⟩
      ≠ .ok ⟨⟨1, 0, 0, 0, 0, 0, 0, true, true, true⟩,
          [⟨[], 1, 0, 0, 0, 0, 0, 0, true, true, true, none⟩]⟩ := by
  simp [adanStep, clipFactor, groupStep, gatherK, nextStep, lt_self_iff_false]

/-- C5 (amended): for a group none of whose parameters carries a gradient, a
successfully clipped `step()` call raises no error and leaves every parameter
and every per-parameter state of that group unchanged, but still increments
the group's step counter (creating it at 1 when absent). -/
theorem gradless_group_noop_except_step (sq : ℚ → ℚ) (o : adan) (c : ℚ) (j : Nat)
    (grp : ParamGroup) (hc : clipFactor sq o = .ok c)
    (hj : o.groups[j]? = some grp)
    (hnone : ∀ e ∈ grp.entries, e.grad = none) :
    (adanStep sq o).map (fun o' => o'.groups[j]?)
      = .ok (some { grp with stepCount := some (nextStep grp.stepCount) }) := by
  unfold adanStep
  rw [hc]
  simp only [Except.map, List.getElem?_map, hj, Option.map_some']
  rw [groupStep_eq, groupStep_entries_gradless sq c grp hnone]

/-- C5 witness: the gradless group keeps its (empty) parameter list and all
hyperparameters, with the step counter created at 1. -/
theorem gradless_group_noop_except_step_witness :
    (adanStep (fun x => x)
        ⟨⟨1, 0, 0, 0, 0, 0, 0, true, true, true⟩,
          [⟨[], 1, 0, 0, 0, 0, 0, 0, true, true, true, none⟩]⟩).map
        (fun o' => o'.groups[0]?)
      = .ok (some ⟨[], 1, 0, 0, 0, 0, 0, 0, true, true, true, some 1⟩) :=
  gradless_group_noop_except_step (fun x => x)
    ⟨⟨1, 0, 0, 0, 0, 0, 0, true, true, true⟩,
      [⟨[], 1, 0, 0, 0, 0, 0, 0, true, true, true, none⟩]⟩ 1 0
    ⟨[], 1, 0, 0, 0, 0, 0, 0, true, true, true, none⟩
    (by simp [clipFactor, lt_self_iff_false]) rfl (by simp)

/-- C2 witness: the kernel/spec agreement evaluated at a concrete parameter. -/
theorem single_kernel_computes_spec_equations_witness :
    ([(5 : ℚ)] : Tensor).length = ([(2 : ℚ)] : Tensor).length ∧
    singleTensorAdanStep (fun x => x)
        ⟨0, 0, 0, 1, 1, (fun x => x) 1, 0, 0, 0, true, true, 1⟩
        ⟨[1], [2], [3], [4], [6], [(5 : ℚ)].map fun x => -x⟩
      = (let g := [(2 : ℚ)].map fun x => x * 1
         let r := adanSpecUpdate (fun x => x) 0 0 0 1 1 1 0 0 0 true true
           [1] [3] [6] [4] [5] g
         ⟨r.param, g, r.m, r.n, r.diff, r.negPre⟩) :=
  ⟨rfl, single_kernel_computes_spec_equations (fun x => x) 0 0 0 1 1 1 0 0 0 1
    true true [1] [2] [3] [6] [4] [5] rfl⟩

/-- C7: a parameter whose gradient is absent during a completed `step()` call
comes out with its value, gradient slot and state dictionary exactly as they
went in — in particular no state entry is created for it. -/
theorem missing_grad_param_untouched (sq : ℚ → ℚ) (o o' : adan) (j i : Nat)
    (grp : ParamGroup) (e : PEntry)
    (hj : o.groups[j]? = some grp) (hi : grp.entries[i]? = some e)
    (hgr : e.grad = none) (hstep : adanStep sq o = .ok o') :
    ((o'.groups[j]?).bind fun grp' => grp'.entries[i]?) = some e := by
  unfold adanStep at hstep
  cases hcf : clipFactor sq o with
  | error er => rw [hcf] at hstep; cases hstep
  | ok c =>
    rw [hcf] at hstep
    injection hstep with hstep
    subst hstep
    simp only [List.getElem?_map, hj, Option.map_some', Option.some_bind]
    rw [groupStep_entries]
    simp only [List.getElem?_map, hi, Option.map_some']
    rw [hgr]

/-- C7 witness: a gradient-less parameter passes through a concrete step
untouched. -/
theorem missing_grad_param_untouched_witness :
    (((⟨⟨1, 0, 0, 0, 0, 0, 0, true, true, true⟩,
        [⟨[⟨[1], none, true, none⟩], 1, 0, 0, 0, 0, 0, 0, true, true, true, some 1⟩]⟩ :
        adan).groups[0]?).bind fun grp' => grp'.entries[0]?)
      = some ⟨[1], none, true, none⟩ :=
  missing_grad_param_untouched (fun x => x)
    ⟨⟨1, 0, 0, 0, 0, 0, 0, true, true, true⟩,
      [⟨[⟨[1], none, true, none⟩], 1, 0, 0, 0, 0, 0, 0, true, true, true, none⟩]⟩
    ⟨⟨1, 0, 0, 0, 0, 0, 0, true, true, true⟩,
      [⟨[⟨[1], none, true, none⟩], 1, 0, 0, 0, 0, 0, 0, true, true, true, some 1⟩]⟩
    0 0
    ⟨[⟨[1], none, true, none⟩], 1, 0, 0, 0, 0, 0, 0, true, true, true, none⟩
    ⟨[1], none, true, none⟩ rfl rfl rfl
    (by simp [adanStep, clipFactor, groupStep, gatherK, nextStep, lt_self_iff_false])

/-- Both kernels scale the gradient buffer of every entry by the clip factor
they were given. -/
theorem kernelStepFn_grad (sq : ℚ → ℚ) (foreach : Bool) (a : KArgs) (k : KEntry) :
    (kernelStepFn sq foreach a k).grad = k.grad.map fun x => x * a.clip := by
  cases foreach <;> simp [kernelStepFn, singleStep_grad, multiStep_grad]

/-- C3: the clip factor of a `step()` call equals
`min(max_grad_norm / (sqrt(Σ grad²) + eps), 1)` when `max_grad_norm > 0` (with
`eps` the group epsilon of the last group, the leaked loop variable), is
exactly 1 when `max_grad_norm = 0`, and this one scalar is the factor by which
every parameter's gradient is scaled, in every group, before the moment
updates consume it. -/
theorem step_clip_factor_correct (sq : ℚ → ℚ) (o : adan) (g0 : ParamGroup)
    (gs : List ParamGroup) (c : ℚ) (j i : Nat) (grp : ParamGroup) (e : PEntry)
    (gr : Tensor)
    (hg : o.groups = g0 :: gs) (hp : g0.entries ≠ [])
    (hc : clipFactor sq o = .ok c)
    (hj : o.groups[j]? = some grp) (hi : grp.entries[i]? = some e)
    (hgr : e.grad = some gr) :
    (0 < o.defaults.maxGradNorm →
      c = min (o.defaults.maxGradNorm / (sq (globalNorm2 o) + (gs.getLastD g0).eps)) 1)
    ∧ (o.defaults.maxGradNorm = 0 → c = 1)
    ∧ (adanStep sq o).map (fun o' =>
        (((o'.groups[j]?).bind fun grp' => grp'.entries[i]?).bind PEntry.grad))
      = .ok (some (gr.map fun x => x * c)) := by
  refine ⟨?_, ?_, ?_⟩
  · intro hmgn
    unfold clipFactor at hc
    rw [hg, if_pos hmgn] at hc
    simp only [] at hc
    cases hpe : g0.entries with
    | nil => exact absurd hpe hp
    | cons a as =>
      rw [hpe] at hc
      simp only [] at hc
      injection hc with hc
      exact hc.symm
  · intro hmgn0
    unfold clipFactor at hc
    rw [hmgn0] at hc
    rw [if_neg (lt_irrefl 0)] at hc
    injection hc with hc
    exact hc.symm
  · unfold adanStep
    rw [hc]
    simp only [Except.map, List.getElem?_map, hj, Option.map_some', Option.some_bind]
    rw [groupStep_entries]
    simp only [List.getElem?_map, hi, Option.map_some']
    rw [hgr]
    simp only [Option.some_bind, writeBack, kernelStepFn_grad]
    rfl

/-- C3 witness: one group, one parameter with gradient `[2]`,
`max_grad_norm = 1`, last-group epsilon 1, and a square root evaluating to 0,
giving clip factor `min(1/(0+1), 1) = 1`; the stored gradient after the step
is `[2]·1`. -/
theorem step_clip_factor_correct_witness :
    (adanStep (fun _ => 0)
        ⟨⟨1, 0, 0, 0, 1, 0, 1, true, true, true⟩,
          [⟨[⟨[1], some [2], true, none⟩], 1, 0, 0, 0, 1, 0, 1, true, true, true, none⟩]⟩).map
        (fun o' => (((o'.groups[0]?).bind fun grp' => grp'.entries[0]?).bind PEntry.grad))
      = .ok (some ([(2 : ℚ)].map fun x => x * 1)) :=
  (step_clip_factor_correct (fun _ => 0)
    ⟨⟨1, 0, 0, 0, 1, 0, 1, true, true, true⟩,
      [⟨[⟨[1], some [2], true, none⟩], 1, 0, 0, 0, 1, 0, 1, true, true, true, none⟩]⟩
    ⟨[⟨[1], some [2], true, none⟩], 1, 0, 0, 0, 1, 0, 1, true, true, true, none⟩
    [] 1 0 0
    ⟨[⟨[1], some [2], true, none⟩], 1, 0, 0, 0, 1, 0, 1, true, true, true, none⟩
    ⟨[1], some [2], true, none⟩ [2]
    rfl (by simp) (by norm_num [clipFactor, globalNorm2]) rfl rfl rfl).2.2
